import Mathlib

/-!
Verification of the campaign-data-pull repository: a shallow embedding of
the Microsoft Ads report client / tolerant CSV parser (src/msadsReport.js),
the HubSpot client (src/hubspotClient.js and its draft in unnamed/part_018),
and the backfill orchestrator (backfill-all.js), together with theorems
settling the specification claims.

Conventions: JavaScript numbers are modelled as `Rat` where fractional
values occur and as `Int`/`Nat` where the code only handles integers;
machine epoch milliseconds are `Int`.  Network responses are inputs
(oracle-style): each embedded network function takes the responses it would
receive as explicit arguments and mirrors the source's control flow on them.
-/

namespace CampaignPull

instance {ε α : Type} [DecidableEq ε] [DecidableEq α] : DecidableEq (Except ε α)
  | .error e, .error f =>
    if h : e = f then .isTrue (by rw [h]) else .isFalse (fun k => by cases k; exact h rfl)
  | .error _, .ok _ => .isFalse (fun k => by cases k)
  | .ok _, .error _ => .isFalse (fun k => by cases k)
  | .ok a, .ok b =>
    if h : a = b then .isTrue (by rw [h]) else .isFalse (fun k => by cases k; exact h rfl)

/-! ## JavaScript string primitives used by the source -/

/-- Whitespace test matching the characters JavaScript `String.prototype.trim`
strips for the ASCII range (space, tab, LF, CR, VT, FF). -/
def isJsWs (c : Char) : Bool :=
  c == ' ' || c == '\t' || c == '\n' || c == '\r' || c.toNat == 11 || c.toNat == 12

/-- Drop leading whitespace characters. -/
def trimStartL (l : List Char) : List Char := l.dropWhile isJsWs

/-- Drop trailing whitespace characters. -/
def trimEndL (l : List Char) : List Char := (l.reverse.dropWhile isJsWs).reverse

/-- Embedding of JavaScript `s.trim()`. -/
def jsTrim (s : String) : String := String.mk (trimEndL (trimStartL s.data))

/-- ASCII lower-casing of a string, embedding `s.toLowerCase()`. -/
def toLowerStr (s : String) : String := String.mk (s.data.map Char.toLower)

/-- Prefix test on character lists. -/
def isPrefixL : List Char → List Char → Bool
  | [], _ => true
  | _ :: _, [] => false
  | p :: ps, c :: cs => p == c && isPrefixL ps cs

/-- Case-insensitive test that `s` starts with the (already lower-case)
pattern `pat`; embeds the JavaScript anchored regex tests such as
`/^total:/i.test(s)`. -/
def startsWithCI (s pat : String) : Bool := isPrefixL pat.data (toLowerStr s).data

/-- Remove every comma, embedding `String(v).replace(/,/g, '')`. -/
def stripCommas (s : String) : String := String.mk (s.data.filter (fun c => c ≠ ','))

/-- Digit run to a natural number (most significant first). -/
def digitsToNat (l : List Char) : Nat :=
  l.foldl (fun acc c => acc * 10 + (c.toNat - '0'.toNat)) 0

/-- Decimal-literal parser modelling the JavaScript `Number(...)` conversion
on the grammar the report payload uses: an optional sign, then digits with at
most one decimal point and at least one digit.  Whitespace-only input
converts to 0 exactly as `Number('')` does.  (Hex and exponent forms of the
JavaScript grammar do not occur in payloads and are not modelled; such
strings fall to `none`, which the caller maps to 0 just as it maps NaN.)
The rational `ip.fp` is assembled as `(ip * 10 ^ k + fp) / 10 ^ k`. -/
def jsNumber (s : String) : Option Rat :=
  let t := jsTrim s
  if t = "" then some 0
  else
    let (neg, body) :=
      match t.data with
      | '-' :: rest => (true, rest)
      | '+' :: rest => (false, rest)
      | l => (false, l)
    let intPart := body.takeWhile Char.isDigit
    let rest := body.dropWhile Char.isDigit
    let assemble : List Char → List Char → Rat := fun ip fp =>
      let n : Int := (digitsToNat ip * 10 ^ fp.length + digitsToNat fp : Nat)
      mkRat (if neg then -n else n) (10 ^ fp.length)
    match rest with
    | [] =>
      if intPart = [] then none
      else some (assemble intPart [])
    | '.' :: frac =>
      if frac.all Char.isDigit ∧ (intPart ≠ [] ∨ frac ≠ []) then
        some (assemble intPart frac)
      else none
    | _ => none

/-- Embedding of `num` (src/msadsReport.js line 41): null/undefined/blank map
to 0, commas are stripped, non-finite conversions map to 0. -/
def num (v : Option String) : Rat :=
  match v with
  | none => 0
  | some s =>
    if s = "" then 0
    else
      match jsNumber (stripCommas s) with
      | some q => q
      | none => 0

/-! ## Tolerant CSV parser (src/msadsReport.js lines 47-155) -/

/-- Occurrences of a character in a string. -/
def charCount (s : String) (c : Char) : Nat := (s.data.filter (fun d => d = c)).length

/-- Embedding of `pickDelimiter`: the three candidate delimiters are counted
and sorted by descending count with JavaScript's stable sort, so the first
maximal count in the insertion order comma, semicolon, tab wins. -/
def pickDelimiter (l : String) : Char :=
  let nc := charCount l ','
  let ns := charCount l ';'
  let nt := charCount l '\t'
  if ns > nc then (if nt > ns then '\t' else ';')
  else (if nt > nc then '\t' else ',')

/-- Core loop of `splitQuoted`: walks the characters with an in-quotes flag
`q`; a quote toggles the flag unless it is the first of a doubled quote
inside quotes, which emits a literal quote; the delimiter ends a field only
outside quotes.  The source's one-character lookahead for the doubled quote
(`line[i+1] === '"'` with `i++`) is realised as a pending flag `p`:
`p = true` means the previous character was a quote seen inside quotes, so a
quote now is the second of a doubled pair (emit a literal quote, stay in
quotes) while anything else means the earlier quote closed the quoting
(reprocess the character with the flag off). -/
def splitQuotedAux (delim : Char) : List Char → List Char → Bool → Bool → List String
  | [], cur, _, _ => [String.mk cur.reverse]
  | c :: rest, cur, q, p =>
    if p then
      if c = '"' then splitQuotedAux delim rest ('"' :: cur) true false
      else if c = delim then
        String.mk cur.reverse :: splitQuotedAux delim rest [] false false
      else splitQuotedAux delim rest (c :: cur) false false
    else
      if c = '"' then
        if q then splitQuotedAux delim rest cur true true
        else splitQuotedAux delim rest cur true false
      else if c = delim ∧ ¬ q then
        String.mk cur.reverse :: splitQuotedAux delim rest [] q false
      else splitQuotedAux delim rest (c :: cur) q false

/-- Embedding of `splitQuoted` (src/msadsReport.js lines 53-70): quote-aware
split on `delim` followed by `.map(s => s.trim())`. -/
def splitQuoted (line : String) (delim : Char) : List String :=
  (splitQuotedAux delim line.data [] false false).map jsTrim

/-- Embedding of `normaliseHeaderToken`: lower-case then strip every
character outside `[a-z0-9]`. -/
def normaliseHeaderToken (t : String) : String :=
  String.mk ((toLowerStr t).data.filter (fun c => ('a' ≤ c ∧ c ≤ 'z') ∨ ('0' ≤ c ∧ c ≤ '9')))

/-- Banner patterns skipped by `findHeaderIndex` (the three anchored
case-insensitive regexes at lines 80-82). -/
def isBannerLine (raw : String) : Bool :=
  startsWithCI raw "report name:" || startsWithCI raw "report generated at" ||
    startsWithCI raw "account:"

/-- A line qualifies as the header if, once trimmed, it is non-blank, not a
banner line, and its fields (split with the picked delimiter, tokens
normalised) include a time-period, campaign-name and clicks column. -/
def isHeaderLine (l : String) : Bool :=
  let raw := jsTrim l
  if raw = "" then false
  else if isBannerLine raw then false
  else
    let delim := pickDelimiter raw
    let cols := (splitQuoted raw delim).map normaliseHeaderToken
    decide ("timeperiod" ∈ cols ∧ "campaignname" ∈ cols ∧ "clicks" ∈ cols)

/-- Loop of `findHeaderIndex` (lines 76-91), returning the index of the first
header line together with the delimiter picked from its trimmed form. -/
def findHeaderAux : List String → Nat → Option (Nat × Char)
  | [], _ => none
  | l :: rest, i =>
    if isHeaderLine l then some (i, pickDelimiter (jsTrim l))
    else findHeaderAux rest (i + 1)

def findHeaderIndex (lines : List String) : Option (Nat × Char) :=
  findHeaderAux lines 0

/-- Column indices resolved by `parseDailyCsv` lines 112-129; `none` plays
the role of -1 (column absent). -/
structure ColMap where
  campaignid : Option Nat
  campaignname : Option Nat
  campaignstatus : Option Nat
  impressions : Option Nat
  clicks : Option Nat
  averagecpc : Option Nat
  spend : Option Nat
  conversions : Option Nat
  allcostperconversion : Option Nat
deriving Repr, DecidableEq

/-- Last index at which `t` occurs, embedding `Object.fromEntries` of
`headerNorm.map((h,i) => [h,i])` where later duplicate keys overwrite
earlier ones. -/
def lastIdxOf (l : List String) (t : String) : Option Nat :=
  (l.enum.foldl (fun acc p => if p.2 = t then some p.1 else acc) none)

/-- `variants.findIndex(v => v in colIdx)` then the chosen column's index. -/
def resolveCol (headerNorm : List String) (variants : List String) : Option Nat :=
  match variants.find? (fun v => (lastIdxOf headerNorm v).isSome) with
  | some v => lastIdxOf headerNorm v
  | none => none

def buildColMap (headerNorm : List String) : ColMap where
  campaignid := resolveCol headerNorm ["campaignid"]
  campaignname := resolveCol headerNorm ["campaignname"]
  campaignstatus := resolveCol headerNorm ["campaignstatus"]
  impressions := resolveCol headerNorm ["impressions"]
  clicks := resolveCol headerNorm ["clicks"]
  averagecpc := resolveCol headerNorm ["averagecpc", "avgcpc"]
  spend := resolveCol headerNorm ["spend", "cost"]
  conversions := resolveCol headerNorm ["conversions", "allconversions"]
  allcostperconversion := resolveCol headerNorm ["allcostperconversion", "costperconversion"]

/-- `cells[i]` for an optional column index: out-of-range or absent column
yields `none` (JavaScript `undefined`). -/
def cellAt (cells : List String) (i : Option Nat) : Option String :=
  i.bind (fun j => cells.get? j)

/-- A parsed report row (the object literal at lines 138-149). -/
structure Row where
  date : String
  campaignId : String
  campaignName : String
  campaignStatus : String
  impressions : Rat
  clicks : Rat
  conversions : Rat
  spend : Rat
  averageCpc : Rat
  allCostPerConversion : Rat
deriving Repr, DecidableEq

/-- Row construction from the split cells (`cells[col.x] || ''` for the
string fields, `num(cells[col.x])` for the numeric ones). -/
def mkRow (isoDate : String) (cols : ColMap) (cells : List String) : Row where
  date := isoDate
  campaignId := (cellAt cells cols.campaignid).getD ""
  campaignName := (cellAt cells cols.campaignname).getD ""
  campaignStatus := (cellAt cells cols.campaignstatus).getD ""
  impressions := num (cellAt cells cols.impressions)
  clicks := num (cellAt cells cols.clicks)
  conversions := num (cellAt cells cols.conversions)
  spend := num (cellAt cells cols.spend)
  averageCpc := num (cellAt cells cols.averagecpc)
  allCostPerConversion := num (cellAt cells cols.allcostperconversion)

/-- Data loop of `parseDailyCsv` (lines 131-151): trims each line, breaks at
the first blank or `Total:` line, skips rows with fewer cells than the
header, and keeps a built row only when it has a campaign id or name. -/
def consumeRows (isoDate : String) (cols : ColMap) (headerLen : Nat) (delim : Char) :
    List String → List Row
  | [] => []
  | l :: rest =>
    let line := jsTrim l
    if line = "" then []
    else if startsWithCI line "total:" then []
    else
      let cells := splitQuoted line delim
      if cells.length < headerLen then consumeRows isoDate cols headerLen delim rest
      else
        let row := mkRow isoDate cols cells
        if row.campaignId ≠ "" ∨ row.campaignName ≠ "" then
          row :: consumeRows isoDate cols headerLen delim rest
        else consumeRows isoDate cols headerLen delim rest

/-- Split on `/\r?\n/`: a LF ends a line, and a CR immediately before the LF
belongs to the separator. -/
def splitLinesAux : List Char → List Char → List String
  | [], acc => [String.mk acc.reverse]
  | '\n' :: rest, acc =>
    (match acc with
     | '\r' :: acc2 => String.mk acc2.reverse
     | _ => String.mk acc.reverse) :: splitLinesAux rest []
  | c :: rest, acc => splitLinesAux rest (c :: acc)

def splitLines (s : String) : List String := splitLinesAux s.data []

/-- Strip a leading byte-order mark (`csv.charCodeAt(0) === 0xFEFF`). -/
def stripBom (s : String) : String :=
  match s.data with
  | c :: rest => if c.toNat = 0xFEFF then String.mk rest else s
  | [] => s

/-- Embedding of `parseDailyCsv` (src/msadsReport.js lines 93-155).  An
empty payload or one of fewer than two lines yields no rows; a missing
header yields no rows when the payload has at most five lines and a parse
error otherwise; otherwise the data lines following the header are consumed
with the detected delimiter. -/
def parseDailyCsv (isoDate : String) (csv : String) : Except String (List Row) :=
  if csv = "" then .ok []
  else
    let csv1 := stripBom csv
    let lines := splitLines csv1
    if lines.length < 2 then .ok []
    else
      match findHeaderIndex lines with
      | none =>
        if lines.length ≤ 5 then .ok []
        else .error "CSV missing expected header row."
      | some (idx, delim) =>
        let headerRaw := (lines.get? idx).getD ""
        let headerCells := splitQuoted headerRaw delim
        let headerNorm := headerCells.map normaliseHeaderToken
        let cols := buildColMap headerNorm
        .ok (consumeRows isoDate cols headerCells.length delim (lines.drop (idx + 1)))

/-! ## Report job client (src/msadsReport.js lines 215-333)

Network responses are oracle inputs.  An axios call without a custom
`validateStatus` rejects (throws) on any non-2xx status; calls that do pass
`validateStatus` receive the response object for the statuses it accepts. -/

/-- Default poll/report timeout constants (lines 31-32, default values). -/
def TOTAL_TIMEOUT_MS : Nat := 12 * 60 * 1000

def POLL_INTERVAL_MS : Nat := 5000

/-- Response to one submit attempt: HTTP status, the `ReportRequestId` field
of the body if present, and whether the serialised body contains
`InvalidCustomDateRangeEnd` or `"Code":2010` (the markers the soft-skip
check looks for in the thrown message). -/
structure SubmitResp where
  status : Nat
  requestId : Option String
  bodyHas2010 : Bool
deriving Repr, DecidableEq

/-- One `attemptSubmit` call (lines 219-229).  `validateStatus: s => s < 500
|| s === 429` means axios itself throws on 5xx, with a generic message that
cannot contain the body markers; a delivered response succeeds only when it
is a 200 carrying a (truthy) `ReportRequestId`, and otherwise throws a
message whose 2010 markers come from the body.  The error value is the
thrown message's answer to the soft-skip test. -/
def attemptSubmit (r : SubmitResp) : Except Bool String :=
  if ¬ (r.status < 500 ∨ r.status = 429) then .error false
  else
    match r.requestId with
    | some id => if r.status = 200 ∧ id ≠ "" then .ok id else .error r.bodyHas2010
    | none => .error r.bodyHas2010

/-- Embedding of `submitReport` (lines 216-254): soft-skip (result `none`)
when the first attempt's message carries the 2010 marker; otherwise one
retry, soft-skip on a 2010 marker there, and a hard error otherwise. -/
def submitReport (first second : SubmitResp) : Except String (Option String) :=
  match attemptSubmit first with
  | .ok id => .ok (some id)
  | .error h1 =>
    if h1 then .ok none
    else
      match attemptSubmit second with
      | .ok id => .ok (some id)
      | .error h2 => if h2 then .ok none else .error "Submit report failed"

/-- Response to one poll request: HTTP status plus the
`ReportRequestStatus.Status` and `ReportRequestStatus.ReportDownloadUrl`
fields when present. -/
structure PollResp where
  httpStatus : Nat
  status : Option String
  url : Option String
deriving Repr, DecidableEq

/-- JavaScript `url || null`: an empty string is falsy. -/
def jsOrNull (u : Option String) : Option String :=
  match u with
  | some s => if s = "" then none else some s
  | none => none

/-- A poll response that keeps the loop going: delivered (2xx, since the
poll call sets no `validateStatus`) but neither a 200/Success nor a
200/Error-or-Failed terminal answer. -/
def pollNonTerminal (r : PollResp) : Prop :=
  (200 ≤ r.httpStatus ∧ r.httpStatus < 300) ∧
    ¬ (r.httpStatus = 200 ∧ r.status = some "Success") ∧
    ¬ (r.httpStatus = 200 ∧ (r.status = some "Error" ∨ r.status = some "Failed"))

instance (r : PollResp) : Decidable (pollNonTerminal r) := by
  unfold pollNonTerminal; infer_instance

/-- Loop of `pollForUrl` (lines 257-284).  `resp n` is the response to the
`n`-th poll and `timeAt n` the elapsed wall-clock `Date.now() - startedAt`
observed after it; the loop is given fuel since the source's `for (;;)` has
no bound of its own — exhausted fuel is reported as an error and every
theorem below pins the result before that happens.  Success yields
`url || null`; Error/Failed yields null; elapsed time beyond the total
timeout yields null; anything else polls again. -/
def pollAux (resp : Nat → PollResp) (timeAt : Nat → Nat) (timeoutMs : Nat) :
    Nat → Nat → Except String (Option String)
  | _, 0 => .error "poll fuel exhausted"
  | n, fuel + 1 =>
    let r := resp n
    if ¬ (200 ≤ r.httpStatus ∧ r.httpStatus < 300) then .error "Request failed"
    else if r.httpStatus = 200 ∧ r.status = some "Success" then .ok (jsOrNull r.url)
    else if r.httpStatus = 200 ∧ (r.status = some "Error" ∨ r.status = some "Failed") then .ok none
    else if timeoutMs < timeAt n then .ok none
    else pollAux resp timeAt timeoutMs (n + 1) fuel

def pollForUrl (resp : Nat → PollResp) (timeAt : Nat → Nat) (timeoutMs fuel : Nat) :
    Except String (Option String) :=
  pollAux resp timeAt timeoutMs 0 fuel

/-- Decoded shape of a download response body, standing for the magic-byte
dispatch at lines 305-316: a ZIP archive (whose first `.csv` entry may be
missing), a gzip stream, or plain text. -/
inductive Payload
  | plain (s : String)
  | zipCsvEntry (s : Option String)
  | gzipped (s : String)
deriving Repr, DecidableEq

def decodePayload : Payload → String
  | .plain s => s
  | .zipCsvEntry (some s) => s
  | .zipCsvEntry none => ""
  | .gzipped s => s

/-- A download response: HTTP status and body. -/
structure DlResp where
  status : Nat
  data : Payload
deriving Repr, DecidableEq

/-- An axios call with the default `validateStatus` (none is passed at lines
289 and 292): the response is delivered only for 2xx statuses and any other
status makes axios throw. -/
def axiosDefault (r : DlResp) : Except String DlResp :=
  if 200 ≤ r.status ∧ r.status < 300 then .ok r
  else .error "Request failed with status code"

/-- Embedding of `downloadCsv` (lines 286-317) for a non-empty url: the
anonymous request first, the written-down bearer retry when that response
reads 401/403, empty text for a non-200 response, and otherwise the decoded
body. -/
def downloadCsv (anon auth : DlResp) : Except String String :=
  match axiosDefault anon with
  | .error e => .error e
  | .ok res0 =>
    match (if res0.status = 403 ∨ res0.status = 401 then axiosDefault auth else .ok res0) with
    | .error e => .error e
    | .ok res =>
      if res.status ≠ 200 then .ok ""
      else .ok (decodePayload res.data)

/-- Network environment of one day's fetch. -/
structure MsEnv where
  submit1 : SubmitResp
  submit2 : SubmitResp
  poll : Nat → PollResp
  timeAt : Nat → Nat
  pollFuel : Nat
  dlAnon : DlResp
  dlAuth : DlResp

/-- Embedding of `getCampaignSummaryForDate` (lines 320-333): submit, then
poll, then download, then parse, with each falsy intermediate result
(`!reqId`, `!url`, `!csv`) short-circuiting to the empty row set. -/
def getCampaignSummaryForDate (env : MsEnv) (isoDate : String) :
    Except String (List Row) :=
  match submitReport env.submit1 env.submit2 with
  | .error e => .error e
  | .ok none => .ok []
  | .ok (some _) =>
    match pollForUrl env.poll env.timeAt TOTAL_TIMEOUT_MS env.pollFuel with
    | .error e => .error e
    | .ok none => .ok []
    | .ok (some _) =>
      match downloadCsv env.dlAnon env.dlAuth with
      | .error e => .error e
      | .ok csv => if csv = "" then .ok [] else parseDailyCsv isoDate csv

/-! ## HubSpot client: campaign resolution (src/hubspotClient.js lines 50-150) -/

/-- A CRM campaign as the client sees it. -/
structure Campaign where
  id : String
  hsName : String
deriving Repr, DecidableEq

/-- The needle and haystack normalisation of `findCampaignByNameOnce`:
`String(name || '').trim().toLowerCase()`. -/
def normName (s : String) : String := toLowerStr (jsTrim s)

/-- One page of the campaign list endpoint: 100 results starting at the
cursor. -/
def pageAt (cs : List Campaign) (after : Nat) : List Campaign :=
  (cs.drop after).take 100

/-- The `paging.next.after` cursor of that page. -/
def nextAfter (cs : List Campaign) (after : Nat) : Option Nat :=
  if after + 100 < cs.length then some (after + 100) else none

/-- Loop of `findCampaignByNameOnce` (lines 71-88) over the visible list
`cs`: fetch a page, look for an exact (trimmed, lower-cased) name match,
follow the cursor, and stop after `maxPages` pages or when the cursor
ends. -/
def findOnceAux (cs : List Campaign) (needle : String) : Nat → Nat → Option Campaign
  | _, 0 => none
  | after, pagesLeft + 1 =>
    match (pageAt cs after).find? (fun c => normName c.hsName == needle) with
    | some c => some c
    | none =>
      match nextAfter cs after with
      | some a2 => findOnceAux cs needle a2 pagesLeft
      | none => none

def findCampaignByNameOnce (cs : List Campaign) (name : String) (maxPages : Nat) :
    Option Campaign :=
  findOnceAux cs (normName name) 0 maxPages

/-- Embedding of `findCampaignByName` (lines 90-99): up to `maxSweeps`
sweeps, each trying the non-archived then the archived list. -/
def findCampaignByName (live arch : List Campaign) (name : String) :
    Nat → Nat → Option Campaign
  | 0, _ => none
  | maxSweeps + 1, maxPages =>
    match findCampaignByNameOnce live name maxPages with
    | some c => some c
    | none =>
      match findCampaignByNameOnce arch name maxPages with
      | some c => some c
      | none => findCampaignByName live arch name maxSweeps maxPages

/-- Outcome of the `createCampaign` POST (lines 112-125): a 201 with the new
campaign, or a thrown error tagged with the response status. -/
inductive CreateOutcome
  | created (c : Campaign)
  | failed (status : Nat)
deriving Repr, DecidableEq

/-- Environment of one `ensureCampaign` call: the campaign lists each
search sees (eventual consistency means later searches may see more) and
the create response. -/
structure EnsureEnv where
  preLive : List Campaign
  preArch : List Campaign
  createResp : CreateOutcome
  retryLive : Nat → List Campaign
  retryArch : Nat → List Campaign

/-- The backoff before retry `i` (line 141): `1000 + i * 250` ms. -/
def ensureRetryDelay (i : Nat) : Nat := 1000 + i * 250

/-- The post-conflict retry loop (lines 139-146): up to 15 retries, each
re-running the search with 2 sweeps and 60 pages, throwing when the budget
is exhausted. -/
def ensureRetryAux (env : EnsureEnv) (name : String) : Nat → Nat → Except String Campaign
  | _, 0 => .error "Create campaign 409 but could not find via list after retries"
  | i, left + 1 =>
    match findCampaignByName (env.retryLive i) (env.retryArch i) name 2 60 with
    | some c => .ok c
    | none => ensureRetryAux env name (i + 1) left

/-- Embedding of `ensureCampaign` (lines 127-150): find first (1 sweep, 50
pages); otherwise create; on a 409 create conflict run the retry loop; any
other create failure propagates. -/
def ensureCampaign (env : EnsureEnv) (name : String) : Except String Campaign :=
  match findCampaignByName env.preLive env.preArch name 1 50 with
  | some c => .ok c
  | none =>
    match env.createResp with
    | .created c => .ok c
    | .failed status =>
      if status = 409 then ensureRetryAux env name 0 15
      else .error "Create campaign failed"

/-! ## HubSpot client: spend ledger (src/hubspotClient.js lines 154-170) -/

/-- A calendar date `YYYY-MM-DD`. -/
structure Ymd where
  y : Nat
  m : Nat
  d : Nat
deriving Repr, DecidableEq

/-- Valid calendar fields (month 1-12, day 1-31, four-digit year). -/
def Ymd.valid (x : Ymd) : Prop :=
  1 ≤ x.m ∧ x.m ≤ 12 ∧ 1 ≤ x.d ∧ x.d ≤ 31 ∧ 1000 ≤ x.y ∧ x.y ≤ 9999

instance (x : Ymd) : Decidable x.valid := by
  unfold Ymd.valid; infer_instance

/-- The deterministic per-day key of `createSpendItem` (line 156):
`Number(new Date(isoDate).toISOString().slice(0, 10))` with the dashes
removed first, i.e. the integer `YYYYMMDD`. -/
def ymdKey (x : Ymd) : Nat := x.y * 10000 + x.m * 100 + x.d

/-- One ledger entry of the campaign's spend sub-resource. -/
structure SpendEntry where
  campaignId : String
  order : Nat
  amount : Rat
deriving Repr, DecidableEq

/-- The spend ledger held by the CRM. -/
structure SpendLedger where
  entries : List SpendEntry
deriving Repr, DecidableEq

/-- The CRM's create-spend endpoint as the interface the client relies on
(spec section 3, SpendLedgerEntry): the uniqueness constraint on the per-day
`order` key answers 409 when an entry with that key already exists for the
campaign and otherwise records the entry with 201. -/
def crmCreateSpend (led : SpendLedger) (cid : String) (order : Nat) (amount : Rat) :
    SpendLedger × Nat :=
  if led.entries.any (fun e => e.campaignId == cid && e.order == order) then (led, 409)
  else (⟨⟨cid, order, amount⟩ :: led.entries⟩, 201)

/-- Rounding to two decimal places, modelling
`Number(Number(amountMajor).toFixed(2))` for the non-negative amounts the
writer sends. -/
def roundTo2 (q : Rat) : Rat := ((q * 100 + 1 / 2).floor : Rat) / 100

/-- Embedding of `createSpendItem` (lines 154-170) against a create endpoint
`post`: derive the day key, round the major-unit amount to two decimals,
submit, succeed exactly on a 201 or 409 response, and throw on anything
else. -/
def createSpendItem (post : SpendLedger → String → Nat → Rat → SpendLedger × Nat)
    (led : SpendLedger) (cid : String) (isoDate : Ymd) (amountMajor : Rat) :
    SpendLedger × Except String Unit :=
  let order := ymdKey isoDate
  let (led2, status) := post led cid order (roundTo2 amountMajor)
  if status = 201 ∨ status = 409 then (led2, .ok ())
  else (led2, .error "Create spend item failed")

/-! ## HubSpot client: monotonic totals (unnamed/part_018 lines 372-420) -/

/-- The totals-bearing properties of one campaign record as
`getTotalsAndLastDate` reads them: running counters plus the
`lastProcessedDate` marker in epoch milliseconds, where a missing property
reads as 0 (`p[HSPROP_LAST_BING_DATE] != null ? Number(...) : 0`). -/
structure TotalsRec where
  clicks : Rat
  imps : Rat
  convs : Rat
  lastMs : Int
  lastStatus : String
deriving Repr, DecidableEq

/-- Embedding of `addDailyTotalsMonotonic` (part_018 lines 406-420): read
totals and marker; if a marker is stored (truthy, i.e. non-zero) and the
day is not strictly after it, skip and report false; otherwise write totals
increased by the day's deltas, advance the marker to the day, and report
true. -/
def addDailyTotalsMonotonic (rec : TotalsRec) (clicks impressions conversions : Rat)
    (dayMs : Int) : TotalsRec × Bool :=
  if rec.lastMs ≠ 0 ∧ dayMs ≤ rec.lastMs then (rec, false)
  else
    (⟨rec.clicks + clicks, rec.imps + impressions, rec.convs + conversions, dayMs, "OK"⟩,
      true)

/-! ## Sync orchestrator (backfill-all.js)

Calendar dates are modelled as epoch days: `new Date(ymd + 'T00:00:00Z')`
is day-number times 86400000 ms, and the generator's `+86400000` step is one
day, so the ISO strings it yields correspond to successive epoch days. -/

/-- Embedding of the `eachDate` generator (backfill-all.js lines 35-41):
yield every day from `f` while it does not exceed `t`. -/
def eachDate (f t : Nat) : List Nat :=
  if f ≤ t then f :: eachDate (f + 1) t else []
termination_by t + 1 - f

/-- JavaScript `Math.round`: half-up towards positive infinity. -/
def jsRound (q : Rat) : Int := (q + 1 / 2).floor

/-- Embedding of `toMajorUnits` (lines 42-45): `Math.round(n * 100) / 100`. -/
def toMajorUnits (q : Rat) : Rat := (jsRound (q * 100) : Rat) / 100

/-- Per-day outcome counters of `processDayForRows`. -/
structure DayRes where
  totalsAdded : Nat
  spendItems : Nat
  failures : Nat
deriving Repr, DecidableEq

instance : Add DayRes := ⟨fun a b =>
  ⟨a.totalsAdded + b.totalsAdded, a.spendItems + b.spendItems, a.failures + b.failures⟩⟩

/-- A row as `processDayForRows` consumes it (`campaignName || row.name`
covers the Twitter rows that only carry `name`). -/
structure BRow where
  campaignName : String
  name : String
  impressions : Rat
  clicks : Rat
  conversions : Rat
  spend : Rat
deriving Repr, DecidableEq

/-- The per-row collaborators of `processDayForRows`, as oracles: campaign
resolution, the spend write and the totals update, any of which may throw. -/
structure RowEnv where
  ensure : String → Except Unit String
  spendW : String → Nat → Rat → Except Unit Unit
  totalsW : String → Rat → Rat → Rat → Nat → Except Unit Bool

/-- Embedding of the loop body of `processDayForRows` (lines 99-175, with
`dryRun` false): a row missing both names fails; a failed resolve fails; a
positive rounded amount attempts the spend write; a non-zero delta attempts
the monotonic totals update (counted only when it reports applied); each
failure is counted and the row's processing continues. -/
def processRow (env : RowEnv) (ymd : Nat) (r : BRow) : DayRes :=
  let nm := if r.campaignName ≠ "" then r.campaignName else r.name
  if nm = "" then ⟨0, 0, 1⟩
  else
    match env.ensure nm with
    | .error _ => ⟨0, 0, 1⟩
    | .ok cid =>
      let amountMajor := toMajorUnits r.spend
      let spendPart : DayRes :=
        if amountMajor > 0 then
          match env.spendW cid ymd amountMajor with
          | .ok _ => ⟨0, 1, 0⟩
          | .error _ => ⟨0, 0, 1⟩
        else ⟨0, 0, 0⟩
      let totalsPart : DayRes :=
        if r.clicks ≠ 0 ∨ r.impressions ≠ 0 ∨ r.conversions ≠ 0 then
          match env.totalsW cid r.clicks r.impressions r.conversions ymd with
          | .ok true => ⟨1, 0, 0⟩
          | .ok false => ⟨0, 0, 0⟩
          | .error _ => ⟨0, 0, 1⟩
        else ⟨0, 0, 0⟩
      spendPart + totalsPart

/-- Embedding of `processDayForRows` (lines 89-178): zero counters for an
empty day, otherwise the rows processed in order with counters
accumulated. -/
def processDayForRows (env : RowEnv) (ymd : Nat) (rows : List BRow) : DayRes :=
  rows.foldl (fun acc r => acc + processRow env ymd r) ⟨0, 0, 0⟩

/-- Aggregate counters of `main` (lines 224, 240-242). -/
structure RunTotals where
  days : Nat
  totalsAdded : Nat
  spendItems : Nat
  failures : Nat
deriving Repr, DecidableEq

/-- One iteration of the date loop of `main` (lines 226-237): a day that
processes normally bumps the day count and accumulates its counters; a day
whose processing throws adds one failure; either way the loop moves on. -/
def mainStep (acc : RunTotals) (r : Except Unit DayRes) : RunTotals :=
  match r with
  | .ok res =>
    ⟨acc.days + 1, acc.totalsAdded + res.totalsAdded, acc.spendItems + res.spendItems,
      acc.failures + res.failures⟩
  | .error _ => ⟨acc.days, acc.totalsAdded, acc.spendItems, acc.failures + 1⟩

/-- Embedding of the date loop of `main`: fold `mainStep` over the dates
with the day processor `proc` as an oracle. -/
def mainLoop (proc : Nat → Except Unit DayRes) (dates : List Nat) : RunTotals :=
  dates.foldl (fun acc d => mainStep acc (proc d)) ⟨0, 0, 0, 0⟩

/-! ## Helper lemmas about JavaScript trim -/

theorem dropWhile_dropWhile (p : α → Bool) (l : List α) :
    (l.dropWhile p).dropWhile p = l.dropWhile p := by
  induction l with
  | nil => rfl
  | cons a l ih =>
    by_cases h : p a
    · simp [List.dropWhile_cons, h, ih]
    · simp [List.dropWhile_cons, h]

theorem trimEndL_trimEndL (l : List Char) :
    trimEndL (trimEndL l) = trimEndL l := by
  simp [trimEndL, dropWhile_dropWhile]

theorem dropWhile_head_false {p : α → Bool} {l : List α} {c : α} {cs : List α}
    (h : l.dropWhile p = c :: cs) : p c = false := by
  have := List.head?_dropWhile_not p l
  rw [h] at this
  exact this

/-- trimEndL returns a prefix of its argument. -/
theorem trimEndL_append (l : List Char) :
    ∃ w, l = trimEndL l ++ w := by
  refine ⟨(l.reverse.takeWhile isJsWs).reverse, ?_⟩
  have h : l.reverse.takeWhile isJsWs ++ l.reverse.dropWhile isJsWs = l.reverse :=
    List.takeWhile_append_dropWhile isJsWs l.reverse
  calc l = l.reverse.reverse := (List.reverse_reverse l).symm
    _ = (l.reverse.takeWhile isJsWs ++ l.reverse.dropWhile isJsWs).reverse := by rw [h]
    _ = trimEndL l ++ (l.reverse.takeWhile isJsWs).reverse := by
        rw [List.reverse_append]; rfl

theorem trimStartL_trimEndL_trimStartL (l : List Char) :
    trimStartL (trimEndL (trimStartL l)) = trimEndL (trimStartL l) := by
  cases he : trimEndL (trimStartL l) with
  | nil => simp [trimStartL]
  | cons c cs =>
    obtain ⟨w, hw⟩ := trimEndL_append (trimStartL l)
    rw [he] at hw
    have hc : isJsWs c = false :=
      dropWhile_head_false (p := isJsWs) (l := l) hw
    simp [trimStartL, List.dropWhile_cons, hc]

/-- JavaScript trim is idempotent. -/
theorem jsTrim_jsTrim (s : String) : jsTrim (jsTrim s) = jsTrim s := by
  show String.mk (trimEndL (trimStartL (trimEndL (trimStartL s.data))))
      = String.mk (trimEndL (trimStartL s.data))
  rw [trimStartL_trimEndL_trimStartL, trimEndL_trimEndL]

/-! ## Claim C1: monotonic totals accumulator -/

/-- C1: for every campaign totals record and date, `addDailyTotalsMonotonic`
with a stored (non-zero) `lastProcessedDate` marker skips the write and
reports false whenever the day is not strictly after the marker, leaving the
record unchanged; when the day is strictly after the marker, or no marker is
stored yet, it writes totals increased by exactly the day's deltas, sets the
marker to the day and reports true; hence for days `0 < d1 < d2`, replaying
`d1` after an applied `d2` is a no-op on the stored totals. -/
theorem addDailyTotalsMonotonic_replay_safe (rec : TotalsRec)
    (clicks impressions conversions : Rat) (dayMs : Int) :
    (rec.lastMs ≠ 0 → dayMs ≤ rec.lastMs →
      addDailyTotalsMonotonic rec clicks impressions conversions dayMs = (rec, false))
    ∧ ((rec.lastMs = 0 ∨ rec.lastMs < dayMs) →
      addDailyTotalsMonotonic rec clicks impressions conversions dayMs =
        (⟨rec.clicks + clicks, rec.imps + impressions, rec.convs + conversions,
          dayMs, "OK"⟩, true))
    ∧ (∀ d1 c1 i1 v1, 0 < d1 → d1 < dayMs → (rec.lastMs = 0 ∨ rec.lastMs < dayMs) →
      addDailyTotalsMonotonic
          (addDailyTotalsMonotonic rec clicks impressions conversions dayMs).1
          c1 i1 v1 d1 =
        ((addDailyTotalsMonotonic rec clicks impressions conversions dayMs).1, false)) := by
  refine ⟨?_, ?_, ?_⟩
  · intro hmark hle
    simp [addDailyTotalsMonotonic, hmark, hle]
  · intro h
    have hguard : ¬ (rec.lastMs ≠ 0 ∧ dayMs ≤ rec.lastMs) := by
      rcases h with h0 | hlt
      · simp [h0]
      · intro ⟨_, hle⟩; omega
    simp [addDailyTotalsMonotonic, hguard]
  · intro d1 c1 i1 v1 hd1 hlt h
    have hguard : ¬ (rec.lastMs ≠ 0 ∧ dayMs ≤ rec.lastMs) := by
      rcases h with h0 | hlt2
      · simp [h0]
      · intro ⟨_, hle⟩; omega
    have happly :
        (addDailyTotalsMonotonic rec clicks impressions conversions dayMs).1 =
          ⟨rec.clicks + clicks, rec.imps + impressions, rec.convs + conversions,
            dayMs, "OK"⟩ := by
      simp [addDailyTotalsMonotonic, hguard]
    rw [happly]
    have hne : dayMs ≠ 0 := by omega
    have hle1 : d1 ≤ dayMs := le_of_lt hlt
    simp [addDailyTotalsMonotonic, hne, hle1]

/-- Witness for C1 at a concrete record: a first run applies the deltas and
a replay of an earlier day is then refused without changing the record. -/
theorem addDailyTotalsMonotonic_replay_safe_witness :
    (addDailyTotalsMonotonic ⟨0, 0, 0, 0, ""⟩ 10 20 30 2).2 = true
    ∧ addDailyTotalsMonotonic
        (addDailyTotalsMonotonic ⟨0, 0, 0, 0, ""⟩ 10 20 30 2).1 5 6 7 1 =
      ((addDailyTotalsMonotonic ⟨0, 0, 0, 0, ""⟩ 10 20 30 2).1, false) := by
  constructor
  · rw [(addDailyTotalsMonotonic_replay_safe ⟨0, 0, 0, 0, ""⟩ 10 20 30 2).2.1
      (Or.inl rfl)]
  · exact (addDailyTotalsMonotonic_replay_safe ⟨0, 0, 0, 0, ""⟩ 10 20 30 2).2.2
      1 5 6 7 (by norm_num) (by norm_num) (Or.inl rfl)

/-! ## Claim C2: idempotent spend ledger writer -/

/-- C2: `createSpendItem` derives the deterministic integer key `YYYYMMDD`
from the date (distinct valid dates give distinct keys), succeeds without
raising exactly when the CRM answers 201 or 409 and raises on any other
status; against the CRM's uniqueness constraint on that key, two identical
calls leave exactly one ledger entry for the campaign and day. -/
theorem createSpendItem_idempotent (led : SpendLedger) (cid : String) (d : Ymd)
    (amt : Rat) :
    (∀ post : SpendLedger → String → Nat → Rat → SpendLedger × Nat,
      ((createSpendItem post led cid d amt).2 = .ok () ↔
        ((post led cid (ymdKey d) (roundTo2 amt)).2 = 201 ∨ (post led cid (ymdKey d) (roundTo2 amt)).2 = 409))
      ∧ (¬ ((post led cid (ymdKey d) (roundTo2 amt)).2 = 201 ∨ (post led cid (ymdKey d) (roundTo2 amt)).2 = 409) →
        (createSpendItem post led cid d amt).2 = .error "Create spend item failed"))
    ∧ (∀ d2 : Ymd, d.valid → d2.valid → d ≠ d2 → ymdKey d ≠ ymdKey d2)
    ∧ (led.entries.countP (fun e => e.campaignId == cid && e.order == ymdKey d) = 0 →
      (createSpendItem crmCreateSpend led cid d amt).2 = .ok ()
      ∧ (createSpendItem crmCreateSpend
          (createSpendItem crmCreateSpend led cid d amt).1 cid d amt).2 = .ok ()
      ∧ (createSpendItem crmCreateSpend
          (createSpendItem crmCreateSpend led cid d amt).1 cid d amt).1 =
        (createSpendItem crmCreateSpend led cid d amt).1
      ∧ (createSpendItem crmCreateSpend
          (createSpendItem crmCreateSpend led cid d amt).1 cid d amt).1.entries.countP
          (fun e => e.campaignId == cid && e.order == ymdKey d) = 1) := by
  refine ⟨?_, ?_, ?_⟩
  · intro post
    constructor
    · constructor
      · intro hok
        by_contra hno
        simp [createSpendItem, hno] at hok
      · intro hst
        simp [createSpendItem, hst]
    · intro hno
      simp [createSpendItem, hno]
  · intro d2 hv1 hv2 hne heq
    apply hne
    obtain ⟨y1, m1, d1⟩ := d
    obtain ⟨y2, m2, e2⟩ := d2
    simp only [ymdKey] at heq
    simp only [Ymd.valid] at hv1 hv2
    simp only [Ymd.mk.injEq]
    omega
  · intro hcount
    have hany : led.entries.any (fun e => e.campaignId == cid && e.order == ymdKey d) = false := by
      rw [List.any_eq_false]
      intro e he
      have := List.countP_eq_zero.mp hcount e he
      simpa using this
    have hfirst : crmCreateSpend led cid (ymdKey d) (roundTo2 amt) =
        (⟨⟨cid, ymdKey d, roundTo2 amt⟩ :: led.entries⟩, 201) := by
      simp [crmCreateSpend, hany]
    have h1 : createSpendItem crmCreateSpend led cid d amt =
        (⟨⟨cid, ymdKey d, roundTo2 amt⟩ :: led.entries⟩, .ok ()) := by
      simp [createSpendItem, hfirst]
    have hany2 : ((⟨⟨cid, ymdKey d, roundTo2 amt⟩ :: led.entries⟩ : SpendLedger).entries.any
        (fun e => e.campaignId == cid && e.order == ymdKey d)) = true := by
      simp [List.any_cons]
    have hsecond : crmCreateSpend ⟨⟨cid, ymdKey d, roundTo2 amt⟩ :: led.entries⟩ cid (ymdKey d) (roundTo2 amt) =
        (⟨⟨cid, ymdKey d, roundTo2 amt⟩ :: led.entries⟩, 409) := by
      simp [crmCreateSpend, hany2]
    have h2 : createSpendItem crmCreateSpend ⟨⟨cid, ymdKey d, roundTo2 amt⟩ :: led.entries⟩ cid d amt =
        (⟨⟨cid, ymdKey d, roundTo2 amt⟩ :: led.entries⟩, .ok ()) := by
      simp [createSpendItem, hsecond]
    refine ⟨by simp [h1], by simp [h1, h2], by simp [h1, h2], ?_⟩
    rw [h1]
    simp only [h2]
    rw [List.countP_cons]
    simp [hcount]

/-- Witness for C2: an empty ledger, campaign `"c"`, 2024-01-15 and amount
5 — the two calls both succeed and the ledger holds exactly one entry keyed
20240115; and 2024-01-16 yields a different key. -/
theorem createSpendItem_idempotent_witness :
    (createSpendItem crmCreateSpend ⟨[]⟩ "c" ⟨2024, 1, 15⟩ 5).2 = .ok ()
    ∧ (createSpendItem crmCreateSpend
        (createSpendItem crmCreateSpend ⟨[]⟩ "c" ⟨2024, 1, 15⟩ 5).1 "c" ⟨2024, 1, 15⟩ 5).1.entries.countP
        (fun e => e.campaignId == "c" && e.order == ymdKey ⟨2024, 1, 15⟩) = 1
    ∧ ymdKey ⟨2024, 1, 15⟩ ≠ ymdKey ⟨2024, 1, 16⟩ := by
  refine ⟨?_, ?_, ?_⟩
  · exact ((createSpendItem_idempotent ⟨[]⟩ "c" ⟨2024, 1, 15⟩ 5).2.2 rfl).1
  · exact ((createSpendItem_idempotent ⟨[]⟩ "c" ⟨2024, 1, 15⟩ 5).2.2 rfl).2.2.2
  · exact (createSpendItem_idempotent ⟨[]⟩ "c" ⟨2024, 1, 15⟩ 5).2.1 ⟨2024, 1, 16⟩
      (by decide) (by decide) (by decide)

/-! ## Claim C10: every field the splitter produces is trimmed -/

/-- C10: every field produced by the quoted-field splitter — header cells
before token normalisation as well as every data-row cell go through it —
is trimmed of leading and trailing whitespace, for every input line and
delimiter. -/
theorem splitQuoted_fields_trimmed (line : String) (delim : Char) (f : String)
    (hf : f ∈ splitQuoted line delim) : jsTrim f = f := by
  obtain ⟨g, _, rfl⟩ := List.mem_map.mp hf
  exact jsTrim_jsTrim g

/-- Witness for C10: the second field of `" a ,  b "` split on a comma is
the trimmed `"b"`, and trimming it again changes nothing. -/
theorem splitQuoted_fields_trimmed_witness :
    "b" ∈ splitQuoted " a ,  b " ',' ∧ jsTrim "b" = "b" :=
  ⟨by decide, splitQuoted_fields_trimmed " a ,  b " ',' "b" (by decide)⟩

/-! ## Helper lemmas for the poll loop -/

theorem pollAux_continue (resp : Nat → PollResp) (timeAt : Nat → Nat)
    (timeoutMs n fuel : Nat) (h1 : pollNonTerminal (resp n))
    (h2 : timeAt n ≤ timeoutMs) :
    pollAux resp timeAt timeoutMs n (fuel + 1) =
      pollAux resp timeAt timeoutMs (n + 1) fuel := by
  obtain ⟨hde, hs, hf⟩ := h1
  simp only [pollAux]
  rw [if_neg (by simpa using hde), if_neg hs, if_neg hf,
    if_neg (by omega)]

theorem pollAux_skip (resp : Nat → PollResp) (timeAt : Nat → Nat) (timeoutMs : Nat) :
    ∀ n fuel, (∀ k, k < n → pollNonTerminal (resp k) ∧ timeAt k ≤ timeoutMs) →
      pollAux resp timeAt timeoutMs 0 (n + fuel) = pollAux resp timeAt timeoutMs n fuel := by
  intro n
  induction n with
  | zero => intro fuel _; rw [Nat.zero_add]
  | succ m ih =>
    intro fuel h
    have h1 := h m (by omega)
    calc pollAux resp timeAt timeoutMs 0 (m + 1 + fuel)
        = pollAux resp timeAt timeoutMs 0 (m + (fuel + 1)) := by ring_nf
      _ = pollAux resp timeAt timeoutMs m (fuel + 1) :=
          ih (fuel + 1) (fun k hk => h k (by omega))
      _ = pollAux resp timeAt timeoutMs (m + 1) fuel :=
          pollAux_continue resp timeAt timeoutMs m fuel h1.1 h1.2

theorem pollForUrl_result (resp : Nat → PollResp) (timeAt : Nat → Nat)
    (timeoutMs fuel n : Nat)
    (hpre : ∀ k, k < n → pollNonTerminal (resp k) ∧ timeAt k ≤ timeoutMs)
    (hfuel : n < fuel)
    (hres : pollAux resp timeAt timeoutMs n 1 = .ok none) :
    pollForUrl resp timeAt timeoutMs fuel = .ok none := by
  unfold pollForUrl
  obtain ⟨m, rfl⟩ : ∃ m, fuel = n + (m + 1) := ⟨fuel - n - 1, by omega⟩
  rw [pollAux_skip resp timeAt timeoutMs n (m + 1) hpre]
  have : ∀ j, pollAux resp timeAt timeoutMs n (j + 1) = .ok none := by
    intro j
    have h1 := hres
    simp only [pollAux] at h1 ⊢
    split at h1
    · exact absurd h1 (by simp)
    · split at h1
      · split <;> simp_all
      · split at h1
        · split <;> simp_all
        · split at h1
          · split <;> simp_all
          · exact absurd h1 (by simp)
  exact this m

/-- A poll response that is 200 with status Error or Failed resolves the
loop to null at its step. -/
theorem pollAux_failed (resp : Nat → PollResp) (timeAt : Nat → Nat)
    (timeoutMs n : Nat) (hde : (resp n).httpStatus = 200)
    (hst : (resp n).status = some "Error" ∨ (resp n).status = some "Failed") :
    pollAux resp timeAt timeoutMs n 1 = .ok none := by
  have hnsucc : ¬ ((resp n).httpStatus = 200 ∧ (resp n).status = some "Success") := by
    rcases hst with h | h <;> simp [h]
  simp only [pollAux]
  rw [if_neg (by simp [hde]), if_neg hnsucc, if_pos ⟨hde, hst⟩]

/-- A poll response that is 200/Success with a falsy download url resolves
the loop to null at its step. -/
theorem pollAux_success_no_url (resp : Nat → PollResp) (timeAt : Nat → Nat)
    (timeoutMs n : Nat) (hde : (resp n).httpStatus = 200)
    (hst : (resp n).status = some "Success") (hurl : jsOrNull (resp n).url = none) :
    pollAux resp timeAt timeoutMs n 1 = .ok none := by
  simp only [pollAux]
  rw [if_neg (by simp [hde]), if_pos ⟨hde, hst⟩, hurl]

/-- A non-terminal poll response past the wall-clock timeout resolves the
loop to null at its step. -/
theorem pollAux_timeout (resp : Nat → PollResp) (timeAt : Nat → Nat)
    (timeoutMs n : Nat) (hnt : pollNonTerminal (resp n))
    (htime : timeoutMs < timeAt n) :
    pollAux resp timeAt timeoutMs n 1 = .ok none := by
  obtain ⟨hde, hs, hf⟩ := hnt
  simp only [pollAux]
  rw [if_neg (by simpa using hde), if_neg hs, if_neg hf, if_pos htime]

theorem getCampaignSummaryForDate_of_poll_none (env : MsEnv) (isoDate : String)
    (rid : String) (hsubmit : submitReport env.submit1 env.submit2 = .ok (some rid))
    (hpoll : pollForUrl env.poll env.timeAt TOTAL_TIMEOUT_MS env.pollFuel = .ok none) :
    getCampaignSummaryForDate env isoDate = .ok [] := by
  simp only [getCampaignSummaryForDate, hsubmit, hpoll]

/-! ## Claim C4: soft-skip cases of the daily report fetch -/

/-- C4: for every date, `getCampaignSummaryForDate` yields the empty row set
without raising when: the submit attempt (or its retry) is rejected with the
known invalid-range markers (`InvalidCustomDateRangeEnd` / code 2010); the
poll ends 200 with status Error or Failed; the poll runs past the total
wall-clock timeout while still non-terminal; or the poll reports Success
with no (truthy) download location. -/
theorem getCampaignSummaryForDate_soft_skips (env : MsEnv) (isoDate : String) :
    (attemptSubmit env.submit1 = .error true →
      getCampaignSummaryForDate env isoDate = .ok [])
    ∧ (attemptSubmit env.submit1 = .error false →
      attemptSubmit env.submit2 = .error true →
      getCampaignSummaryForDate env isoDate = .ok [])
    ∧ (∀ rid n, submitReport env.submit1 env.submit2 = .ok (some rid) →
      (∀ k, k < n → pollNonTerminal (env.poll k) ∧ env.timeAt k ≤ TOTAL_TIMEOUT_MS) →
      (env.poll n).httpStatus = 200 →
      ((env.poll n).status = some "Error" ∨ (env.poll n).status = some "Failed") →
      n < env.pollFuel →
      getCampaignSummaryForDate env isoDate = .ok [])
    ∧ (∀ rid n, submitReport env.submit1 env.submit2 = .ok (some rid) →
      (∀ k, k < n → pollNonTerminal (env.poll k) ∧ env.timeAt k ≤ TOTAL_TIMEOUT_MS) →
      pollNonTerminal (env.poll n) → TOTAL_TIMEOUT_MS < env.timeAt n →
      n < env.pollFuel →
      getCampaignSummaryForDate env isoDate = .ok [])
    ∧ (∀ rid n, submitReport env.submit1 env.submit2 = .ok (some rid) →
      (∀ k, k < n → pollNonTerminal (env.poll k) ∧ env.timeAt k ≤ TOTAL_TIMEOUT_MS) →
      (env.poll n).httpStatus = 200 → (env.poll n).status = some "Success" →
      jsOrNull (env.poll n).url = none →
      n < env.pollFuel →
      getCampaignSummaryForDate env isoDate = .ok []) := by
  refine ⟨?_, ?_, ?_, ?_, ?_⟩
  · intro h
    have hsub : submitReport env.submit1 env.submit2 = .ok none := by
      simp [submitReport, h]
    simp [getCampaignSummaryForDate, hsub]
  · intro h1 h2
    have hsub : submitReport env.submit1 env.submit2 = .ok none := by
      simp [submitReport, h1, h2]
    simp [getCampaignSummaryForDate, hsub]
  · intro rid n hsub hpre hde hst hfuel
    exact getCampaignSummaryForDate_of_poll_none env isoDate rid hsub
      (pollForUrl_result env.poll env.timeAt TOTAL_TIMEOUT_MS env.pollFuel n hpre hfuel
        (pollAux_failed env.poll env.timeAt TOTAL_TIMEOUT_MS n hde hst))
  · intro rid n hsub hpre hnt htime hfuel
    exact getCampaignSummaryForDate_of_poll_none env isoDate rid hsub
      (pollForUrl_result env.poll env.timeAt TOTAL_TIMEOUT_MS env.pollFuel n hpre hfuel
        (pollAux_timeout env.poll env.timeAt TOTAL_TIMEOUT_MS n hnt htime))
  · intro rid n hsub hpre hde hst hurl hfuel
    exact getCampaignSummaryForDate_of_poll_none env isoDate rid hsub
      (pollForUrl_result env.poll env.timeAt TOTAL_TIMEOUT_MS env.pollFuel n hpre hfuel
        (pollAux_success_no_url env.poll env.timeAt TOTAL_TIMEOUT_MS n hde hst hurl))

/-- Witness for C4 at concrete environments: a submit rejected with the 2010
marker, and a first poll answering 200/Failed, each produce the empty row
set. -/
theorem getCampaignSummaryForDate_soft_skips_witness :
    getCampaignSummaryForDate
      ⟨⟨400, none, true⟩, ⟨400, none, true⟩, fun _ => ⟨200, some "Pending", none⟩,
        fun _ => 0, 3, ⟨200, .plain ""⟩, ⟨200, .plain ""⟩⟩ "2024-01-01" = .ok []
    ∧ getCampaignSummaryForDate
      ⟨⟨200, some "rid1", false⟩, ⟨400, none, false⟩, fun _ => ⟨200, some "Failed", none⟩,
        fun _ => 0, 3, ⟨200, .plain ""⟩, ⟨200, .plain ""⟩⟩ "2024-01-01" = .ok [] := by
  constructor
  · exact (getCampaignSummaryForDate_soft_skips _ "2024-01-01").1 (by decide)
  · exact (getCampaignSummaryForDate_soft_skips _ "2024-01-01").2.2.1 "rid1" 0
      (by decide) (by omega) (by decide) (by decide) (by decide)

/-! ## Helper lemmas for the orchestrator loop -/

theorem eachDate_eq_range' (f t : Nat) : eachDate f t = List.range' f (t + 1 - f) := by
  have key : ∀ n f, t + 1 - f = n → eachDate f t = List.range' f n := by
    intro n
    induction n with
    | zero =>
      intro f hf
      rw [eachDate, if_neg (by omega)]
      rfl
    | succ m ih =>
      intro f hf
      rw [eachDate, if_pos (by omega), List.range'_succ,
        ih (f + 1) (by omega)]
  exact key (t + 1 - f) f rfl

/-- The value a processed day contributes to each aggregate counter. -/
def dayContrib (proc : Nat → Except Unit DayRes) (d : Nat) : RunTotals :=
  match proc d with
  | .ok r => ⟨1, r.totalsAdded, r.spendItems, r.failures⟩
  | .error _ => ⟨0, 0, 0, 1⟩

theorem mainLoop_go (proc : Nat → Except Unit DayRes) (dates : List Nat)
    (acc : RunTotals) :
    dates.foldl (fun a d => mainStep a (proc d)) acc =
      ⟨acc.days + (dates.map (fun d => (dayContrib proc d).days)).sum,
       acc.totalsAdded + (dates.map (fun d => (dayContrib proc d).totalsAdded)).sum,
       acc.spendItems + (dates.map (fun d => (dayContrib proc d).spendItems)).sum,
       acc.failures + (dates.map (fun d => (dayContrib proc d).failures)).sum⟩ := by
  induction dates generalizing acc with
  | nil => cases acc; simp
  | cons d ds ih =>
    rw [List.foldl_cons, ih]
    cases hpd : proc d <;>
      simp [mainStep, dayContrib, hpd, List.map_cons, List.sum_cons,
        RunTotals.mk.injEq] <;> omega

theorem processDayForRows_go (env : RowEnv) (ymd : Nat) (rows : List BRow)
    (acc : DayRes) :
    rows.foldl (fun a r => a + processRow env ymd r) acc =
      ⟨acc.totalsAdded + (rows.map (fun r => (processRow env ymd r).totalsAdded)).sum,
       acc.spendItems + (rows.map (fun r => (processRow env ymd r).spendItems)).sum,
       acc.failures + (rows.map (fun r => (processRow env ymd r).failures)).sum⟩ := by
  induction rows generalizing acc with
  | nil => cases acc; simp
  | cons r rs ih =>
    rw [List.foldl_cons, ih]
    simp only [List.map_cons, List.sum_cons, HAdd.hAdd, Add.add, DayRes.mk.injEq]
    refine ⟨?_, ?_, ?_⟩ <;> exact Nat.add_assoc _ _ _

/-! ## Claim C5: the date loop visits the closed interval and isolates failures -/

/-- C5: for `from ≤ to` the orchestrator's date loop visits exactly the
days of the closed interval, each once, in ascending order; and the loop's
counters are the pointwise sum of per-date contributions — a date whose
processing throws contributes one failure and the loop still accumulates
every other date — just as a day's counters are the pointwise sum of
per-row contributions, so no per-date or per-row failure aborts the rest. -/
theorem backfill_date_loop (f t : Nat) :
    (∀ d, d ∈ eachDate f t ↔ f ≤ d ∧ d ≤ t)
    ∧ (eachDate f t).Pairwise (· < ·)
    ∧ (eachDate f t).Nodup
    ∧ (∀ proc : Nat → Except Unit DayRes, ∀ dates : List Nat,
        mainLoop proc dates =
          ⟨(dates.map (fun d => (dayContrib proc d).days)).sum,
           (dates.map (fun d => (dayContrib proc d).totalsAdded)).sum,
           (dates.map (fun d => (dayContrib proc d).spendItems)).sum,
           (dates.map (fun d => (dayContrib proc d).failures)).sum⟩)
    ∧ (∀ env : RowEnv, ∀ ymd : Nat, ∀ rows : List BRow,
        processDayForRows env ymd rows =
          ⟨(rows.map (fun r => (processRow env ymd r).totalsAdded)).sum,
           (rows.map (fun r => (processRow env ymd r).spendItems)).sum,
           (rows.map (fun r => (processRow env ymd r).failures)).sum⟩) := by
  refine ⟨?_, ?_, ?_, ?_, ?_⟩
  · intro d
    rw [eachDate_eq_range', List.mem_range'_1]
    omega
  · rw [eachDate_eq_range']
    exact List.pairwise_lt_range' _ _
  · rw [eachDate_eq_range']
    exact (List.pairwise_lt_range' _ _).imp Nat.ne_of_lt
  · intro proc dates
    unfold mainLoop
    rw [mainLoop_go]
    simp
  · intro env ymd rows
    unfold processDayForRows
    rw [processDayForRows_go]
    simp

/-! ## Helper lemmas for campaign resolution -/

theorem findOnceAux_sound (cs : List Campaign) (needle : String) :
    ∀ pages after c, findOnceAux cs needle after pages = some c →
      c ∈ cs ∧ normName c.hsName = needle := by
  intro pages
  induction pages with
  | zero => intro after c h; exact absurd h (by simp [findOnceAux])
  | succ p ih =>
    intro after c h
    rw [findOnceAux] at h
    split at h
    · next c2 hfind =>
      cases h
      refine ⟨?_, ?_⟩
      · exact List.drop_subset _ _ (List.take_subset _ _
          (List.mem_of_find?_eq_some hfind))
      · have := List.find?_some hfind
        simpa using this
    · next hfind =>
      split at h
      · next a2 hnext => exact ih a2 c h
      · exact absurd h (by simp)

theorem findCampaignByName_sound (live arch : List Campaign) (name : String) :
    ∀ sweeps pages c, findCampaignByName live arch name sweeps pages = some c →
      (c ∈ live ∨ c ∈ arch) ∧ normName c.hsName = normName name := by
  intro sweeps
  induction sweeps with
  | zero => intro pages c h; exact absurd h (by simp [findCampaignByName])
  | succ s ih =>
    intro pages c h
    rw [findCampaignByName] at h
    split at h
    · next hlive =>
      cases h
      have := findOnceAux_sound live (normName name) pages 0 c hlive
      exact ⟨Or.inl this.1, this.2⟩
    · split at h
      · next harch =>
        cases h
        have := findOnceAux_sound arch (normName name) pages 0 c harch
        exact ⟨Or.inr this.1, this.2⟩
      · exact ih pages c h

theorem ensureRetryAux_exhausted (env : EnsureEnv) (name : String) :
    ∀ left i,
      (∀ j, i ≤ j → j < i + left →
        findCampaignByName (env.retryLive j) (env.retryArch j) name 2 60 = none) →
      ensureRetryAux env name i left =
        .error "Create campaign 409 but could not find via list after retries" := by
  intro left
  induction left with
  | zero => intro i _; rfl
  | succ l ih =>
    intro i h
    rw [ensureRetryAux]
    rw [h i (by omega) (by omega)]
    exact ih (i + 1) (fun j hj1 hj2 => h j (by omega) (by omega))

theorem ensureRetryAux_found (env : EnsureEnv) (name : String) :
    ∀ k left i c, k < left →
      (∀ j, i ≤ j → j < i + k →
        findCampaignByName (env.retryLive j) (env.retryArch j) name 2 60 = none) →
      findCampaignByName (env.retryLive (i + k)) (env.retryArch (i + k)) name 2 60 = some c →
      ensureRetryAux env name i left = .ok c := by
  intro k
  induction k with
  | zero =>
    intro left i c hk _ hfound
    obtain ⟨l, rfl⟩ : ∃ l, left = l + 1 := ⟨left - 1, by omega⟩
    rw [ensureRetryAux]
    rw [show i + 0 = i from rfl] at hfound
    rw [hfound]
  | succ m ih =>
    intro left i c hk hnone hfound
    obtain ⟨l, rfl⟩ : ∃ l, left = l + 1 := ⟨left - 1, by omega⟩
    rw [ensureRetryAux]
    rw [hnone i (by omega) (by omega)]
    refine ih l (i + 1) c (by omega) (fun j hj1 hj2 => hnone j (by omega) (by omega)) ?_
    rw [show i + 1 + m = i + (m + 1) from by omega]
    exact hfound

/-! ## Claim C3: campaign resolver tolerates create conflicts -/

/-- C3: when the pre-create search misses and creation answers a 409
conflict, `ensureCampaign` does not fail immediately: it re-runs the
exact-name search up to 15 more times with strictly increasing backoff
delays, returns the campaign any retry finds (a campaign that is in the
searched lists and carries the searched name), and raises only after all 15
retries miss; consequently a second sequential resolve for the same name
that hits a create conflict returns the same external id as the first
resolve, provided every matching campaign the retries can see carries that
id. -/
theorem ensureCampaign_conflict_retry (env : EnsureEnv) (name : String)
    (hpre : findCampaignByName env.preLive env.preArch name 1 50 = none)
    (hconf : env.createResp = .failed 409) :
    ((∀ i, i < 15 →
        findCampaignByName (env.retryLive i) (env.retryArch i) name 2 60 = none) →
      ensureCampaign env name =
        .error "Create campaign 409 but could not find via list after retries")
    ∧ (∀ k c, k < 15 →
        (∀ j, j < k →
          findCampaignByName (env.retryLive j) (env.retryArch j) name 2 60 = none) →
        findCampaignByName (env.retryLive k) (env.retryArch k) name 2 60 = some c →
        ensureCampaign env name = .ok c
        ∧ (c ∈ env.retryLive k ∨ c ∈ env.retryArch k)
        ∧ normName c.hsName = normName name)
    ∧ (∀ i j, i < j → ensureRetryDelay i < ensureRetryDelay j)
    ∧ (∀ c1 : Campaign, ∀ env1 : EnsureEnv,
        ensureCampaign env1 name = .ok c1 →
        (∀ i, ∀ c' ∈ env.retryLive i, normName c'.hsName = normName name → c'.id = c1.id) →
        (∀ i, ∀ c' ∈ env.retryArch i, normName c'.hsName = normName name → c'.id = c1.id) →
        ∀ k c, k < 15 →
          (∀ j, j < k →
            findCampaignByName (env.retryLive j) (env.retryArch j) name 2 60 = none) →
          findCampaignByName (env.retryLive k) (env.retryArch k) name 2 60 = some c →
          ensureCampaign env name = .ok c ∧ c.id = c1.id) := by
  have hunfold : ensureCampaign env name = ensureRetryAux env name 0 15 := by
    simp [ensureCampaign, hpre, hconf]
  refine ⟨?_, ?_, ?_, ?_⟩
  · intro hall
    rw [hunfold]
    exact ensureRetryAux_exhausted env name 15 0 (fun j hj1 hj2 => hall j (by omega))
  · intro k c hk hnone hfound
    have hsound := findCampaignByName_sound (env.retryLive k) (env.retryArch k) name 2 60 c hfound
    refine ⟨?_, hsound.1, hsound.2⟩
    rw [hunfold]
    exact ensureRetryAux_found env name k 15 0 c hk
      (fun j hj1 hj2 => hnone j (by omega)) (by simpa using hfound)
  · intro i j hij
    simp only [ensureRetryDelay]
    omega
  · intro c1 env1 _ huliv huarc k c hk hnone hfound
    have hsound := findCampaignByName_sound (env.retryLive k) (env.retryArch k) name 2 60 c hfound
    have hid : c.id = c1.id := by
      rcases hsound.1 with hmem | hmem
      · exact huliv k c hmem hsound.2
      · exact huarc k c hmem hsound.2
    refine ⟨?_, hid⟩
    rw [hunfold]
    exact ensureRetryAux_found env name k 15 0 c hk
      (fun j hj1 hj2 => hnone j (by omega)) (by simpa using hfound)

/-- The campaign used by the C3 witness scenario. -/
def campX : Campaign := ⟨"123", "camp x"⟩

/-- First resolve call: the CRM search already sees the campaign. -/
def resolverFirstEnv : EnsureEnv :=
  ⟨[campX], [], .created campX, fun _ => [campX], fun _ => []⟩

/-- Second resolve call: a stale pre-create search, a 409 create conflict,
and list reads that surface the campaign from the third retry on. -/
def resolverSecondEnv : EnsureEnv :=
  ⟨[], [], .failed 409, fun i => if 2 ≤ i then [campX] else [], fun _ => []⟩

/-- Witness for C3: the first resolve returns the stored campaign, and the
second resolve — whose create conflicts and whose search lags two retries —
returns the very same campaign id. -/
theorem ensureCampaign_conflict_retry_witness :
    ensureCampaign resolverFirstEnv "camp x" = .ok campX
    ∧ ensureCampaign resolverSecondEnv "camp x" = .ok campX
    ∧ campX.id = campX.id := by
  have h1 : ensureCampaign resolverFirstEnv "camp x" = .ok campX := by decide
  have h2 := (ensureCampaign_conflict_retry resolverSecondEnv "camp x"
      (by decide) rfl).2.2.2 campX resolverFirstEnv h1
    (by
      intro i c' hc' _
      by_cases h2i : 2 ≤ i
      · simp [resolverSecondEnv, h2i] at hc'
        rw [hc']
      · simp [resolverSecondEnv, h2i] at hc')
    (by
      intro i c' hc' _
      simp [resolverSecondEnv] at hc')
    2 campX (by omega)
    (by
      intro j hj
      interval_cases j <;> decide)
    (by decide)
  exact ⟨h1, h2.1, h2.2⟩

/-! ## Helper lemmas for the parser claims -/

theorem findHeaderAux_none (lines : List String)
    (h : ∀ l ∈ lines, isHeaderLine l = false) :
    ∀ i, findHeaderAux lines i = none := by
  induction lines with
  | nil => intro i; rfl
  | cons l ls ih =>
    intro i
    rw [findHeaderAux]
    rw [h l (by simp)]
    simp only [Bool.false_eq_true, if_false]
    exact ih (fun x hx => h x (by simp [hx])) (i + 1)

/-! ## Claim C6: a missing header is tolerated only on short payloads -/

/-- C6: when no candidate line of the payload qualifies as a header (after
trimming, banner skipping, and the normalised-token test for a time-period,
campaign-name and clicks column), `parseDailyCsv` returns the empty row set
when the payload has at most five lines and raises a parse error when it is
longer; in particular a three-line payload with no recognisable header
yields the empty row set. -/
theorem parseDailyCsv_no_header (isoDate csv : String)
    (h : ∀ l ∈ splitLines (stripBom csv), isHeaderLine l = false) :
    ((splitLines (stripBom csv)).length ≤ 5 → parseDailyCsv isoDate csv = .ok [])
    ∧ (5 < (splitLines (stripBom csv)).length →
        parseDailyCsv isoDate csv = .error "CSV missing expected header row.") := by
  have hidx : findHeaderIndex (splitLines (stripBom csv)) = none :=
    findHeaderAux_none _ h 0
  by_cases hempty : csv = ""
  · subst hempty
    constructor
    · intro _
      simp [parseDailyCsv]
    · intro h5
      exfalso
      revert h5
      decide
  · constructor
    · intro h5
      by_cases hlen : (splitLines (stripBom csv)).length < 2
      · simp [parseDailyCsv, hempty, hlen]
      · simp [parseDailyCsv, hempty, hlen, hidx, h5]
    · intro h5
      have hlen : ¬ (splitLines (stripBom csv)).length < 2 := by omega
      simp [parseDailyCsv, hempty, hlen, hidx, show
        ¬ (splitLines (stripBom csv)).length ≤ 5 from by omega]

/-- The three-line payload of the C6 witness. -/
def noHeaderPayload : String := "hello\nworld\nfoo"

/-- Witness for C6: the concrete three-line payload has no header candidate
and parses to the empty row set. -/
theorem parseDailyCsv_no_header_witness :
    (∀ l ∈ splitLines (stripBom noHeaderPayload), isHeaderLine l = false)
    ∧ parseDailyCsv "2024-01-01" noHeaderPayload = .ok [] :=
  ⟨by decide, (parseDailyCsv_no_header "2024-01-01" noHeaderPayload (by decide)).1
    (by decide)⟩

/-! ## Helper lemmas for the quote-aware splitter -/

theorem splitQuotedAux_in_quotes (delim : Char) :
    ∀ (l : List Char) (cur : List Char), (∀ c ∈ l, c ≠ '"') →
      splitQuotedAux delim (l ++ ['"']) cur true false =
        [String.mk (cur.reverse ++ l)] := by
  intro l
  induction l with
  | nil =>
    intro cur _
    simp [splitQuotedAux]
  | cons c cs ih =>
    intro cur h
    have hc : c ≠ '"' := h c (by simp)
    rw [List.cons_append, splitQuotedAux]
    rw [if_neg (by simp), if_neg hc, if_neg (by simp)]
    rw [ih (c :: cur) (fun x hx => h x (by simp [hx]))]
    simp

/-- A wholly quoted field: the quotes enclose the content (which may contain
the delimiter) and are not part of the produced field. -/
theorem splitQuoted_quoted_field (s : String) (delim : Char)
    (h : ∀ c ∈ s.data, c ≠ '"') :
    splitQuoted (String.mk ('"' :: (s.data ++ ['"']))) delim = [jsTrim s] := by
  show (splitQuotedAux delim ('"' :: (s.data ++ ['"'])) [] false false).map jsTrim
      = [jsTrim s]
  rw [splitQuotedAux]
  rw [if_neg (by simp), if_pos rfl]
  rw [splitQuotedAux_in_quotes delim s.data [] h]
  simp

/-! ## Claim C7: the data loop (corrected) -/

/-- A payload whose third line is a copyright footer sitting between two
data rows. -/
def copyrightPayload : String :=
  "TimePeriod,CampaignId,CampaignName,Clicks\n2024-01-02,1,Camp A,5\n©2024 Microsoft Corporation. All rights reserved.\n2024-01-02,2,Camp B,7"

/-- Counterexample to C7 as stated: the copyright footer line does NOT stop
consumption — the data row after it is still parsed, so the produced rows
are Camp A and Camp B even though the copyright line sits between them. -/
theorem parseDailyCsv_reads_past_copyright :
    ((parseDailyCsv "2024-01-02" copyrightPayload).toOption.getD []).map
        (fun r => r.campaignName) = ["Camp A", "Camp B"]
    ∧ (splitLines copyrightPayload).get? 2 =
        some "©2024 Microsoft Corporation. All rights reserved." := by
  constructor
  · decide
  · decide

/-- C7 (amended): with a detected header, each following line is split with
the detected delimiter honouring quoted fields (a quote toggles the
in-quotes state so a quoted field may contain the delimiter, and a doubled
quote inside quotes is a literal quote); consumption stops at the first
blank line or `Total:` summary line; every row with fewer fields than the
header — a copyright footer line among them — is merely discarded and
consumption continues past it. -/
theorem consumeRows_stop_and_discard (iso : String) (cols : ColMap) (hl : Nat)
    (delim : Char) (l : String) (rest : List String) :
    (jsTrim l = "" → consumeRows iso cols hl delim (l :: rest) = [])
    ∧ (jsTrim l ≠ "" → startsWithCI (jsTrim l) "total:" = true →
        consumeRows iso cols hl delim (l :: rest) = [])
    ∧ (jsTrim l ≠ "" → startsWithCI (jsTrim l) "total:" = false →
        (splitQuoted (jsTrim l) delim).length < hl →
        consumeRows iso cols hl delim (l :: rest) = consumeRows iso cols hl delim rest)
    ∧ (jsTrim l ≠ "" → startsWithCI (jsTrim l) "total:" = false →
        hl ≤ (splitQuoted (jsTrim l) delim).length →
        consumeRows iso cols hl delim (l :: rest) =
          (if (mkRow iso cols (splitQuoted (jsTrim l) delim)).campaignId ≠ "" ∨
              (mkRow iso cols (splitQuoted (jsTrim l) delim)).campaignName ≠ "" then
            mkRow iso cols (splitQuoted (jsTrim l) delim) ::
              consumeRows iso cols hl delim rest
          else consumeRows iso cols hl delim rest))
    ∧ (∀ s : String, (∀ c ∈ s.data, c ≠ '"') →
        splitQuoted (String.mk ('"' :: (s.data ++ ['"']))) delim = [jsTrim s])
    ∧ splitQuoted "\"a\"\"b\"" ',' = ["a\"b"] := by
  refine ⟨?_, ?_, ?_, ?_, ?_, ?_⟩
  · intro hb
    simp [consumeRows, hb]
  · intro hb ht
    simp [consumeRows, hb, ht]
  · intro hb ht hlen
    simp [consumeRows, hb, ht, hlen]
  · intro hb ht hlen
    simp [consumeRows, hb, ht, Nat.not_lt.mpr hlen]
  · intro s hs
    exact splitQuoted_quoted_field s delim hs
  · decide

/-- Witness for C7 (amended) at concrete inputs: a blank line stops the
loop, a short copyright line is skipped with consumption continuing, and a
quoted field keeps its embedded delimiter. -/
theorem consumeRows_stop_and_discard_witness :
    consumeRows "2024-01-02" (buildColMap ["timeperiod", "campaignid", "campaignname", "clicks"])
      4 ',' ["", "2024-01-02,9,Camp Z,1"] = []
    ∧ consumeRows "2024-01-02" (buildColMap ["timeperiod", "campaignid", "campaignname", "clicks"])
      4 ',' ["©2024 Microsoft Corporation. All rights reserved.", ""] =
      consumeRows "2024-01-02" (buildColMap ["timeperiod", "campaignid", "campaignname", "clicks"])
      4 ',' [""]
    ∧ splitQuoted (String.mk ('"' :: (("b,c").data ++ ['"']))) ',' = [jsTrim "b,c"] := by
  refine ⟨?_, ?_, ?_⟩
  · exact (consumeRows_stop_and_discard "2024-01-02" _ 4 ',' "" _).1 (by decide)
  · exact (consumeRows_stop_and_discard "2024-01-02" _ 4 ','
      "©2024 Microsoft Corporation. All rights reserved." _).2.2.1
      (by decide) (by decide) (by decide)
  · exact (consumeRows_stop_and_discard "2024-01-02"
      (buildColMap ["timeperiod", "campaignid", "campaignname", "clicks"]) 4 ',' "" []).2.2.2.2.1
      "b,c" (by decide)

/-! ## Helper lemmas for the normaliser claim -/

theorem consumeRows_mem (iso : String) (cols : ColMap) (hl : Nat) (delim : Char) :
    ∀ (ls : List String) (r : Row), r ∈ consumeRows iso cols hl delim ls →
      (∃ cells, r = mkRow iso cols cells)
      ∧ (r.campaignId ≠ "" ∨ r.campaignName ≠ "") := by
  intro ls
  induction ls with
  | nil => intro r hr; exact absurd hr (by simp [consumeRows])
  | cons l rest ih =>
    intro r hr
    rw [consumeRows] at hr
    by_cases hb : jsTrim l = ""
    · simp [hb] at hr
    · rw [if_neg hb] at hr
      by_cases ht : startsWithCI (jsTrim l) "total:" = true
      · simp [ht] at hr
      · rw [if_neg ht] at hr
        by_cases hlen : (splitQuoted (jsTrim l) delim).length < hl
        · rw [if_pos hlen] at hr
          exact ih r hr
        · rw [if_neg hlen] at hr
          by_cases hkeep : (mkRow iso cols (splitQuoted (jsTrim l) delim)).campaignId ≠ ""
              ∨ (mkRow iso cols (splitQuoted (jsTrim l) delim)).campaignName ≠ ""
          · rw [if_pos hkeep] at hr
            rcases List.mem_cons.mp hr with hr1 | hr2
            · subst hr1
              exact ⟨⟨_, rfl⟩, hkeep⟩
            · exact ih r hr2
          · rw [if_neg hkeep] at hr
            exact ih r hr

theorem stripCommas_idem (s : String) : stripCommas (stripCommas s) = stripCommas s := by
  simp [stripCommas, List.filter_filter]

/-! ## Claim C8: metric row normalisation -/

/-- C8: the normaliser coerces numeric fields by stripping thousands
separators (`"1,234"` becomes 1234, and in general `num` is unchanged by
first removing the commas itself), maps missing or blank numeric fields to
0, drops a row exactly when it has neither an external campaign id nor a
campaign name (a kept row always has one of them, and a built row with
neither is not emitted), and stamps every produced record with the
requested date. -/
theorem metric_rows_normalised :
    (∀ iso csv rows, parseDailyCsv iso csv = .ok rows →
      ∀ r ∈ rows, r.date = iso ∧ (r.campaignId ≠ "" ∨ r.campaignName ≠ ""))
    ∧ (∀ iso cols hl delim l (rest : List String),
        jsTrim l ≠ "" → startsWithCI (jsTrim l) "total:" = false →
        hl ≤ (splitQuoted (jsTrim l) delim).length →
        (mkRow iso cols (splitQuoted (jsTrim l) delim)).campaignId = "" →
        (mkRow iso cols (splitQuoted (jsTrim l) delim)).campaignName = "" →
        consumeRows iso cols hl delim (l :: rest) = consumeRows iso cols hl delim rest)
    ∧ num none = 0
    ∧ num (some "") = 0
    ∧ num (some "1,234") = 1234
    ∧ (∀ s, num (some s) = num (some (stripCommas s))) := by
  refine ⟨?_, ?_, by decide, by decide, by decide, ?_⟩
  · intro iso csv rows hok r hr
    simp only [parseDailyCsv] at hok
    split at hok
    · cases hok; simp at hr
    · split at hok
      · cases hok; simp at hr
      · split at hok
        · split at hok
          · cases hok; simp at hr
          · cases hok
        · next idx delim heq =>
          cases hok
          have := consumeRows_mem iso _ _ delim _ r hr
          obtain ⟨⟨cells, rfl⟩, hkeep⟩ := this
          exact ⟨rfl, hkeep⟩
  · intro iso cols hl delim l rest hb ht hlen hid hname
    rw [consumeRows]
    rw [if_neg hb, if_neg (by simp [ht]), if_neg (Nat.not_lt.mpr hlen)]
    rw [if_neg (by simp [hid, hname])]
  · intro s
    by_cases hs : s = ""
    · subst hs; rfl
    · by_cases hs2 : stripCommas s = ""
      · have h0 : jsNumber "" = some 0 := by decide
        simp [num, hs, hs2, h0]
      · simp [num, hs, hs2, stripCommas_idem]

/-- The payload of the spec's parser example: banner lines, a
semicolon-delimited header, and three data rows with a thousands
separator. -/
def semicolonPayload : String :=
  "Report Name: CampaignPerf\nReport Generated At 2024\nAccount: 123\nSomething else\nTimePeriod;CampaignId;CampaignName;CampaignStatus;Impressions;Clicks;Spend;Conversions\n2024-01-01;11;Camp A;Active;\"1,234\";10;5.50;2\n2024-01-01;12;Camp B;Active;200;20;1.25;0\n2024-01-01;13;Camp C;Paused;300;30;0;1\nTotal:;;;;;;;\n©2024 Microsoft"

/-- Witness for C8: the example payload parses to exactly three rows, the
`"1,234"` impressions cell is coerced to 1234, and every produced row is
stamped with the requested date by the claim theorem. -/
theorem metric_rows_normalised_witness :
    ((parseDailyCsv "2024-01-01" semicolonPayload).toOption.getD []).length = 3
    ∧ ((parseDailyCsv "2024-01-01" semicolonPayload).toOption.getD []).map
        (fun r => r.impressions) = [1234, 200, 300]
    ∧ ∀ r ∈ (parseDailyCsv "2024-01-01" semicolonPayload).toOption.getD [],
        r.date = "2024-01-01" := by
  refine ⟨by decide, by decide, ?_⟩
  intro r hr
  exact ((metric_rows_normalised).1 "2024-01-01" semicolonPayload
    ((parseDailyCsv "2024-01-01" semicolonPayload).toOption.getD [])
    (by decide) r hr).1

/-! ## Claim C9: the bearer retry of the download step (code bug) -/

/-- C9 (code bug): the download step's two axios calls pass no
`validateStatus`, so an anonymous attempt answered 401 or 403 makes axios
throw before the written-down `if (res.status === 403 || res.status ===
401)` bearer retry can run — the function raises instead of retrying, and
its outcome never depends on the bearer response at all (the retry branch
is dead code, since a delivered response is always 2xx). -/
theorem downloadCsv_dead_bearer_retry :
    (∀ auth : DlResp,
      downloadCsv ⟨401, .plain "x"⟩ auth = .error "Request failed with status code")
    ∧ (∀ auth : DlResp,
      downloadCsv ⟨403, .plain "x"⟩ auth = .error "Request failed with status code")
    ∧ (∀ anon auth auth2 : DlResp, downloadCsv anon auth = downloadCsv anon auth2) := by
  refine ⟨?_, ?_, ?_⟩
  · intro auth
    rfl
  · intro auth
    rfl
  · intro anon auth auth2
    unfold downloadCsv
    cases hres : axiosDefault anon with
    | error e => rfl
    | ok res0 =>
      have h2xx : 200 ≤ res0.status ∧ res0.status < 300 := by
        unfold axiosDefault at hres
        split at hres
        · cases hres; assumption
        · cases hres
      have hne : ¬ (res0.status = 403 ∨ res0.status = 401) := by omega
      simp [hne]

end CampaignPull
